import Mathlib

/-!
Verification development for the `cam` package: an MJPEG camera client that
connects to an HTTP multipart stream, reads JPEG parts in a loop, and fans
each decoded frame out to a registry of subscriber queues.

The definitions below are a shallow embedding of `cam.go`.  External
collaborators (the HTTP transport and the MIME multipart parser) are
modelled as inputs: a `ConnectResult` stands for the outcome of
`cam.connect()` together with `mime.ParseMediaType` applied to the declared
content type, and the multipart source is a finite list of part payloads
followed by a terminating event.  Concurrency is modelled by sequential
interleaving: a spawned goroutine is represented by the state change it
performs when it runs, recorded separately from the value the spawning call
returns to its caller.  A `none` result of a state transition represents a
run-time panic of the Go process (dereference of a nil handle); a panicking
transition has no successor state.
-/

namespace Cam

/-- One decoded JPEG chunk plus metadata, mirroring `type Frame struct`.
`number` carries the value of `uint64(i)` for the loop counter `i`, hence
the reduction modulo `2 ^ 64` where it is produced. Timestamps are an
abstract monotone clock (`time.Time` values ordered by receipt). -/
structure Frame where
  cameraName : String
  number : Nat
  timestamp : Nat
  bytes : List Nat
deriving DecidableEq

/-- One subscriber queue: the Go code uses `chan Frame` with capacity 20.
The capacity only determines where a sender blocks, not which frames a
draining consumer receives, so the buffer is modelled as the unbounded
sequence of frames delivered to the channel in order.  `closed` records
whether `close` has been called on the channel; a send to a closed channel
panics in Go. -/
structure Queue where
  qid : Nat
  closed : Bool
  buffer : List Frame
deriving DecidableEq

/-- The `io.ReadCloser` held in `cam.body`.  Only its open/closed status is
observable to the core. -/
structure BodyHandle where
  closed : Bool
deriving DecidableEq

/-- The `Camera` struct: configuration plus live state.  `body = none`
models a nil `io.ReadCloser` interface value.  `nextQid` is a modelling
device producing the fresh channel identity that `make(chan Frame, 20)`
allocates; it corresponds to no Go field and no Go statement writes it
except channel allocation in `Subscribe`. -/
structure Camera where
  name : String
  url : String
  username : String
  password : String
  log : Bool
  lastFrame : Option Frame
  reconnect : Bool
  body : Option BodyHandle
  listeners : List Queue
  locked : Bool
  nextQid : Nat
deriving DecidableEq

/-- A freshly constructed `Camera` literal: the unexported fields and
`LastFrame` hold their Go zero values. -/
def initCamera (name url username password : String) (log reconnect : Bool) : Camera :=
  { name := name, url := url, username := username, password := password,
    log := log, lastFrame := none, reconnect := reconnect, body := none,
    listeners := [], locked := false, nextQid := 0 }

/-- Outcome of `mime.ParseMediaType` on the declared `Content-Type` header:
either a parse error or a media type string together with the optional
`boundary` parameter (`params["boundary"]`). -/
inductive MediaTypeResult where
  | parseError (msg : String)
  | parsed (mediaType : String) (boundary : Option String)
deriving DecidableEq

/-- Outcome of `cam.connect()` combined with header parsing: `failure` is a
transport-level error from `client.Do`, `success` carries the parsed
content type of the open response. -/
inductive ConnectResult where
  | failure (msg : String)
  | success (contentType : MediaTypeResult)
deriving DecidableEq

/-- The errors `start()` can return: the `client.Do` error, the
`mime.ParseMediaType` error, or the `fmt.Errorf` value built for a
non-multipart response. -/
inductive CamError where
  | transport (msg : String)
  | parseFailure (msg : String)
  | nonMultipart (url : String)
deriving DecidableEq

/-- Boolean test for a successful `connect()`; the response body is
assigned to `cam.body` exactly when this holds. -/
def connOk : ConnectResult → Bool
  | .failure _ => false
  | .success _ => true

/-- Models `strings.HasPrefix s p` from the Go standard library. -/
def strStartsWith (s p : String) : Bool :=
  p.data.isPrefixOf s.data

/-- Result of `start()`: the updated camera, the returned error value, and
the boundary string of each frame-reader goroutine spawned by this call
(`go cam.read(reader)` contributes one entry). -/
structure StartResult where
  cam : Camera
  err : Option CamError
  readers : List String
deriving DecidableEq

/-- The body of `func (cam *Camera) start() error`.  Note that `cam.body`
is assigned immediately after a successful connect, before the content
type is inspected, so the handle is set even on the parse-error and
non-multipart paths. -/
def start (cam : Camera) (r : ConnectResult) : StartResult :=
  match r with
  | .failure m => { cam := cam, err := some (.transport m), readers := [] }
  | .success ct =>
    let cam1 := { cam with body := some { closed := false } }
    match ct with
    | .parseError m => { cam := cam1, err := some (.parseFailure m), readers := [] }
    | .parsed mediaType boundary =>
      match boundary with
      | some b =>
        if strStartsWith mediaType "multipart/" then
          { cam := cam1, err := none, readers := [b] }
        else
          { cam := cam1, err := some (.nonMultipart cam.url), readers := [] }
      | none => { cam := cam1, err := some (.nonMultipart cam.url), readers := [] }

/-- The body of `func (cam *Camera) stop()`, which is `cam.body.Close()`.
Calling `Close` through a nil interface value panics, modelled by `none`;
otherwise the held stream is closed and the field keeps pointing at the
(now closed) handle — it is never reset to nil. -/
def stopInternal (cam : Camera) : Option Camera :=
  match cam.body with
  | none => none
  | some _ => some { cam with body := some { closed := true } }

/-- The body of the public `func (cam *Camera) Stop()`: it sets
`cam.Reconnect = false`, calls `cam.stop()` (panicking on a nil body), and
replaces the listener slice with a fresh empty one without closing any of
the dropped channels. -/
def StopPub (cam : Camera) : Option Camera :=
  match stopInternal { cam with reconnect := false } with
  | none => none
  | some c => some { c with listeners := [] }

/-- Channel send of a frame on one open queue. -/
def deliver (f : Frame) (q : Queue) : Queue :=
  { q with buffer := q.buffer ++ [f] }

/-- The body of `func (cam *Camera) emit(frame Frame)`: it sends the frame
to each listener in slice order inside `defer func() { recover() }()`.  A
send on a closed channel panics; the recover swallows the panic, so the
call returns normally but the listeners after the closed one are never
reached. -/
def emit (listeners : List Queue) (f : Frame) : List Queue :=
  match listeners with
  | [] => []
  | q :: qs => if q.closed then q :: qs else deliver f q :: emit qs f

/-- How the multipart source terminates after its successful parts, mapped
from the branches of the read loop: `eofLike` is a `NextPart` error equal
to `io.EOF` or containing the text `NextPart` (the loop calls `cam.stop()`
and returns); `nextPartOther` is any other `NextPart` error (logged,
return); `drainPartRead` is an `ioutil.ReadAll` error containing
`Part Read` (silent return); `drainOther` is any other drain error
(logged, return). -/
inductive SourceEnd where
  | eofLike
  | nextPartOther
  | drainPartRead
  | drainOther
deriving DecidableEq

/-- The loop of `func (cam *Camera) read(mr *multipart.Reader)` applied to
a source that yields `parts` and then terminates with `ending`.  `i` is the
loop counter and `t` the abstract receipt clock, advancing by one per
frame.  Each successful part is wrapped into a `Frame` with
`Number = uint64(i)`, recorded in `cam.LastFrame`, and emitted.  Only the
`eofLike` termination invokes `cam.stop()`; no termination path touches
any subscriber queue. -/
def readLoop (cam : Camera) (parts : List (List Nat)) (ending : SourceEnd)
    (i t : Nat) : Option Camera :=
  match parts with
  | [] =>
    match ending with
    | .eofLike => stopInternal cam
    | _ => some cam
  | p :: rest =>
    let f : Frame := { cameraName := cam.name, number := i % 2 ^ 64,
                       timestamp := t, bytes := p }
    readLoop { cam with lastFrame := some f, listeners := emit cam.listeners f }
      rest ending (i + 1) (t + 1)

/-- The frames the read loop constructs from the given part payloads,
starting at loop counter `i` and clock `t`. -/
def partsFrames (name : String) : List (List Nat) → Nat → Nat → List Frame
  | [], _, _ => []
  | p :: rest, i, t =>
    { cameraName := name, number := i % 2 ^ 64, timestamp := t, bytes := p }
      :: partsFrames name rest (i + 1) (t + 1)

/-- Result of one `keepalive()` invocation: the camera state after the call
(and after the `cam.stop()` it may force, `none` on a nil-body panic),
whether the call actually slept the watchdog interval (false exactly for
the guarded no-op), whether it forced `stop()`, and whether it rescheduled
itself with `go cam.keepalive()`. -/
structure KeepaliveResult where
  cam : Option Camera
  slept : Bool
  stopped : Bool
  rescheduled : Bool
deriving DecidableEq

/-- The body of `func (cam *Camera) keepalive()` entered at clock `now`:
it returns immediately when the single-flight latch is held or reconnect
is disabled; otherwise it takes the latch, sleeps 10 units, releases the
latch, and then forces `cam.stop()` when a last frame exists and is older
than 10 units (`time.Since(cam.LastFrame.Timestamp) > 10`), rescheduling
itself otherwise. -/
def keepalive (cam : Camera) (now : Nat) : KeepaliveResult :=
  if cam.locked || !cam.reconnect then
    { cam := some cam, slept := false, stopped := false, rescheduled := false }
  else
    let c1 := { cam with locked := false }
    let t := now + 10
    match c1.lastFrame with
    | some f =>
      if 10 < t - f.timestamp then
        { cam := stopInternal c1, slept := true, stopped := true, rescheduled := false }
      else
        { cam := some c1, slept := true, stopped := false, rescheduled := true }
    | none => { cam := some c1, slept := true, stopped := false, rescheduled := true }

/-- Result of one `Subscribe()` call.  `cam` is the state after the spawned
goroutine has completed, `handle` is the identity of the channel handed to
the caller, `returned` is the error value the caller receives, and
`startErr` is the error produced by the `start()` call the goroutine makes
on the empty-registry transition (dropped into the dead local `err`). -/
structure SubscribeResult where
  cam : Camera
  handle : Nat
  returned : Option CamError
  startErr : Option CamError
deriving DecidableEq

/-- The body of `func (cam *Camera) Subscribe() (<-chan Frame, error)`.
The call allocates the channel, spawns a goroutine that (under the mutex)
runs `start()` when the registry is empty and then appends the channel,
and immediately executes `return l, err`.  The return reads `err` without
any synchronisation with the write the goroutine performs later, so the
caller receives the initial nil value; the `start()` error is produced
(and lost) inside the goroutine. -/
def Subscribe (cam : Camera) (r : ConnectResult) : SubscribeResult :=
  let q : Queue := { qid := cam.nextQid, closed := false, buffer := [] }
  let p : Camera × Option CamError :=
    if cam.listeners.isEmpty then
      let s := start cam r
      (s.cam, s.err)
    else (cam, none)
  { cam := { p.1 with listeners := p.1.listeners ++ [q], nextQid := cam.nextQid + 1 },
    handle := q.qid,
    returned := none,
    startErr := p.2 }

/-- Result of one `Unsubscribe` call: the boolean the caller receives, the
state after the spawned removal goroutine has completed (`none` when that
goroutine panicked in `cam.Stop()` on a nil body, killing the process
before `close(l)`), and the channel closed by the goroutine, if any. -/
structure UnsubResult where
  found : Bool
  cam : Option Camera
  closedQid : Option Nat
deriving DecidableEq

/-- The body of `func (cam *Camera) Unsubscribe(unsub <-chan Frame) bool`:
it scans the listener slice for the given channel; on a match it spawns a
goroutine that (under the mutex) calls `cam.Stop()` when the registry
holds a single entry and otherwise splices the entry out, then closes the
removed channel; `true` is returned to the caller as soon as the match is
found, before the goroutine runs. -/
def Unsubscribe (cam : Camera) (h : Nat) : UnsubResult :=
  match cam.listeners.findIdx? (fun q => q.qid == h) with
  | none => { found := false, cam := some cam, closedQid := none }
  | some i =>
    if cam.listeners.length = 1 then
      match StopPub cam with
      | none => { found := true, cam := none, closedQid := none }
      | some c => { found := true, cam := some c, closedQid := some h }
    else
      { found := true,
        cam := some { cam with listeners := cam.listeners.eraseIdx i },
        closedQid := some h }

/-- One atomic transition of the camera, paired with a ghost bit that is
true exactly when some `start()` invocation so far has successfully
connected.  `subscribe` and `restart` are the two call sites of `start()`
(the 0-to-1 subscribe transition and one attempt of the deferred reconnect
loop in `read`); `readRun` is a complete run of the frame-reader loop;
`keepaliveRun` is one watchdog pass.  Transitions that would panic have no
successor. -/
inductive Step : Camera → Bool → Camera → Bool → Prop where
  | subscribe (c : Camera) (b : Bool) (r : ConnectResult) :
      Step c b (Subscribe c r).cam (b || (c.listeners.isEmpty && connOk r))
  | unsubscribe (c : Camera) (b : Bool) (h : Nat) (c' : Camera) :
      (Unsubscribe c h).cam = some c' → Step c b c' b
  | stopPub (c : Camera) (b : Bool) (c' : Camera) :
      StopPub c = some c' → Step c b c' b
  | readRun (c : Camera) (b : Bool) (parts : List (List Nat)) (ending : SourceEnd)
      (i t : Nat) (c' : Camera) :
      readLoop c parts ending i t = some c' → Step c b c' b
  | restart (c : Camera) (b : Bool) (r : ConnectResult) :
      Step c b (start c r).cam (b || connOk r)
  | keepaliveRun (c : Camera) (b : Bool) (now : Nat) (c' : Camera) :
      (keepalive c now).cam = some c' → Step c b c' b

/-- States reachable from a freshly constructed camera by any interleaving
of the public calls and the internal start, stop, read and keepalive
transitions, together with the ghost connected-once bit. -/
inductive Reach : Camera → Bool → Prop where
  | init (name url username password : String) (log reconnect : Bool) :
      Reach (initCamera name url username password log reconnect) false
  | step {c : Camera} {b : Bool} {c' : Camera} {b' : Bool} :
      Reach c b → Step c b c' b' → Reach c' b'

end Cam

namespace Cam

theorem emit_qid_closed (ls : List Queue) (f : Frame) :
    (emit ls f).map (fun q => (q.qid, q.closed)) = ls.map (fun q => (q.qid, q.closed)) := by
  induction ls with
  | nil => rfl
  | cons q qs ih =>
    by_cases h : q.closed
    · simp [emit, h]
    · simp [emit, h, deliver, ih]

theorem emit_open (ls : List Queue) (f : Frame) (h : ∀ q ∈ ls, q.closed = false) :
    emit ls f = ls.map (deliver f) := by
  induction ls with
  | nil => rfl
  | cons q qs ih =>
    have hq : q.closed = false := h q (by simp)
    simp [emit, hq, ih (fun x hx => h x (by simp [hx]))]

theorem start_cam_eq (c : Camera) (r : ConnectResult) :
    (start c r).cam = if connOk r then { c with body := some { closed := false } } else c := by
  cases r with
  | failure m => rfl
  | success ct =>
    cases ct with
    | parseError m => rfl
    | parsed mt bo =>
      cases bo with
      | none => rfl
      | some b =>
        by_cases h : strStartsWith mt "multipart/" <;> simp [start, connOk, h]

theorem start_body (c : Camera) (r : ConnectResult) :
    (start c r).cam.body.isSome = (c.body.isSome || connOk r) := by
  rw [start_cam_eq]
  cases r <;> simp [connOk]

theorem start_listeners (c : Camera) (r : ConnectResult) :
    (start c r).cam.listeners = c.listeners := by
  rw [start_cam_eq]
  cases r <;> simp [connOk]

theorem start_reconnect (c : Camera) (r : ConnectResult) :
    (start c r).cam.reconnect = c.reconnect := by
  rw [start_cam_eq]
  cases r <;> simp [connOk]

theorem stopInternal_none (c : Camera) (h : c.body = none) : stopInternal c = none := by
  simp [stopInternal, h]

theorem stopInternal_some (c : Camera) (b : BodyHandle) (h : c.body = some b) :
    stopInternal c = some { c with body := some { closed := true } } := by
  simp [stopInternal, h]

theorem stopInternal_some_elim {c c' : Camera} (h : stopInternal c = some c') :
    c' = { c with body := some { closed := true } } ∧ c.body.isSome = true := by
  cases hb : c.body with
  | none => rw [stopInternal_none c hb] at h; exact absurd h (by simp)
  | some b => rw [stopInternal_some c b hb] at h; exact ⟨(Option.some_injective _ h).symm, rfl⟩

theorem StopPub_none (c : Camera) (h : c.body = none) : StopPub c = none := by
  simp [StopPub, stopInternal, h]

theorem StopPub_some (c : Camera) (b : BodyHandle) (h : c.body = some b) :
    StopPub c
      = some { c with reconnect := false, body := some { closed := true }, listeners := [] } := by
  simp [StopPub, stopInternal, h]

theorem StopPub_some_elim {c c' : Camera} (h : StopPub c = some c') :
    c' = { c with reconnect := false, body := some { closed := true }, listeners := [] }
      ∧ c.body.isSome = true := by
  cases hb : c.body with
  | none => rw [StopPub_none c hb] at h; exact absurd h (by simp)
  | some b => rw [StopPub_some c b hb] at h; exact ⟨(Option.some_injective _ h).symm, rfl⟩

end Cam

namespace Cam

theorem readLoop_qid_closed (parts : List (List Nat)) :
    ∀ (c : Camera) (ending : SourceEnd) (i t : Nat) (c' : Camera),
      readLoop c parts ending i t = some c' →
      c'.listeners.map (fun q => (q.qid, q.closed)) = c.listeners.map (fun q => (q.qid, q.closed)) := by
  induction parts with
  | nil =>
    intro c ending i t c' h
    cases ending with
    | eofLike =>
      simp only [readLoop] at h
      rw [(stopInternal_some_elim h).1]
    | nextPartOther => simp only [readLoop] at h; rw [← Option.some_injective _ h]
    | drainPartRead => simp only [readLoop] at h; rw [← Option.some_injective _ h]
    | drainOther => simp only [readLoop] at h; rw [← Option.some_injective _ h]
  | cons p rest ih =>
    intro c ending i t c' h
    simp only [readLoop] at h
    have h2 := ih _ ending (i + 1) (t + 1) c' h
    rw [h2]
    exact emit_qid_closed c.listeners _

theorem readLoop_body (parts : List (List Nat)) :
    ∀ (c : Camera) (ending : SourceEnd) (i t : Nat) (c' : Camera),
      readLoop c parts ending i t = some c' →
      c'.body.isSome = c.body.isSome := by
  induction parts with
  | nil =>
    intro c ending i t c' h
    cases ending with
    | eofLike =>
      simp only [readLoop] at h
      obtain ⟨rfl, hb⟩ := stopInternal_some_elim h
      simp [hb]
    | nextPartOther => simp only [readLoop] at h; rw [← Option.some_injective _ h]
    | drainPartRead => simp only [readLoop] at h; rw [← Option.some_injective _ h]
    | drainOther => simp only [readLoop] at h; rw [← Option.some_injective _ h]
  | cons p rest ih =>
    intro c ending i t c' h
    simp only [readLoop] at h
    have h2 := ih _ ending (i + 1) (t + 1) c' h
    exact h2

theorem readLoop_reconnect (parts : List (List Nat)) :
    ∀ (c : Camera) (ending : SourceEnd) (i t : Nat) (c' : Camera),
      readLoop c parts ending i t = some c' →
      c'.reconnect = c.reconnect := by
  induction parts with
  | nil =>
    intro c ending i t c' h
    cases ending with
    | eofLike =>
      simp only [readLoop] at h
      rw [(stopInternal_some_elim h).1]
    | nextPartOther => simp only [readLoop] at h; rw [← Option.some_injective _ h]
    | drainPartRead => simp only [readLoop] at h; rw [← Option.some_injective _ h]
    | drainOther => simp only [readLoop] at h; rw [← Option.some_injective _ h]
  | cons p rest ih =>
    intro c ending i t c' h
    simp only [readLoop] at h
    have h2 := ih _ ending (i + 1) (t + 1) c' h
    exact h2

theorem readLoop_open_buffers (parts : List (List Nat)) :
    ∀ (c : Camera) (ending : SourceEnd) (i t : Nat) (c' : Camera),
      (∀ q ∈ c.listeners, q.closed = false) →
      readLoop c parts ending i t = some c' →
      c'.listeners
        = c.listeners.map
            (fun q => { q with buffer := q.buffer ++ partsFrames c.name parts i t }) := by
  induction parts with
  | nil =>
    intro c ending i t c' hopen h
    have hl : c'.listeners = c.listeners := by
      cases ending with
      | eofLike =>
        simp only [readLoop] at h
        rw [(stopInternal_some_elim h).1]
      | nextPartOther => simp only [readLoop] at h; rw [← Option.some_injective _ h]
      | drainPartRead => simp only [readLoop] at h; rw [← Option.some_injective _ h]
      | drainOther => simp only [readLoop] at h; rw [← Option.some_injective _ h]
    rw [hl]
    simp [partsFrames]
  | cons p rest ih =>
    intro c ending i t c' hopen h
    simp only [readLoop] at h
    have hopen1 : ∀ q ∈ emit c.listeners
        { cameraName := c.name, number := i % 2 ^ 64, timestamp := t, bytes := p },
        q.closed = false := by
      rw [emit_open _ _ hopen]
      intro q hq
      rw [List.mem_map] at hq
      obtain ⟨a, ha, rfl⟩ := hq
      exact hopen a ha
    have h2 := ih _ ending (i + 1) (t + 1) c' hopen1 h
    rw [h2, emit_open _ _ hopen]
    simp only [List.map_map, partsFrames]
    apply List.map_congr_left
    intro a _
    simp [deliver]

end Cam



namespace Cam

theorem keepalive_body {c : Camera} {now : Nat} {c' : Camera}
    (h : (keepalive c now).cam = some c') : c'.body.isSome = c.body.isSome := by
  by_cases hg : c.locked || !c.reconnect
  · simp only [keepalive, hg, if_pos] at h
    rw [← Option.some_injective _ h]
  · simp only [keepalive, hg, if_neg, Bool.false_eq_true, not_false_iff] at h
    cases hf : c.lastFrame with
    | none => simp only [hf] at h; rw [← Option.some_injective _ h]
    | some f =>
      simp only [hf] at h
      by_cases ht : 10 < now + 10 - f.timestamp
      · simp only [ht, if_pos] at h
        obtain ⟨rfl, hb⟩ := stopInternal_some_elim h
        simp only [Option.isSome_some]
        exact hb.symm
      · simp only [ht, if_neg, not_false_iff] at h
        rw [← Option.some_injective _ h]

theorem keepalive_reconnect {c : Camera} {now : Nat} {c' : Camera}
    (h : (keepalive c now).cam = some c') : c'.reconnect = c.reconnect := by
  by_cases hg : c.locked || !c.reconnect
  · simp only [keepalive, hg, if_pos] at h
    rw [← Option.some_injective _ h]
  · simp only [keepalive, hg, if_neg, Bool.false_eq_true, not_false_iff] at h
    cases hf : c.lastFrame with
    | none => simp only [hf] at h; rw [← Option.some_injective _ h]
    | some f =>
      simp only [hf] at h
      by_cases ht : 10 < now + 10 - f.timestamp
      · simp only [ht, if_pos] at h
        rw [(stopInternal_some_elim h).1]
      · simp only [ht, if_neg, not_false_iff] at h
        rw [← Option.some_injective _ h]

theorem Subscribe_cam_empty (c : Camera) (r : ConnectResult) (h : c.listeners.isEmpty = true) :
    (Subscribe c r).cam
      = { (start c r).cam with
          listeners := (start c r).cam.listeners ++ [{ qid := c.nextQid, closed := false, buffer := [] }],
          nextQid := c.nextQid + 1 } := by
  simp [Subscribe, h]

theorem Subscribe_cam_nonempty (c : Camera) (r : ConnectResult) (h : c.listeners.isEmpty = false) :
    (Subscribe c r).cam
      = { c with
          listeners := c.listeners ++ [{ qid := c.nextQid, closed := false, buffer := [] }],
          nextQid := c.nextQid + 1 } := by
  simp [Subscribe, h]

theorem Subscribe_reconnect (c : Camera) (r : ConnectResult) :
    (Subscribe c r).cam.reconnect = c.reconnect := by
  by_cases h : c.listeners.isEmpty
  · rw [Subscribe_cam_empty c r h]
    exact start_reconnect c r
  · rw [Subscribe_cam_nonempty c r (by simpa using h)]

theorem Subscribe_body (c : Camera) (r : ConnectResult) :
    (Subscribe c r).cam.body.isSome = (c.body.isSome || (c.listeners.isEmpty && connOk r)) := by
  by_cases he : c.listeners.isEmpty
  · rw [Subscribe_cam_empty c r he]
    show (start c r).cam.body.isSome = _
    rw [start_body]
    simp [he]
  · rw [Subscribe_cam_nonempty c r (by simpa using he)]
    show c.body.isSome = _
    simp [List.isEmpty_eq_false_iff_exists_mem.mpr, he]

theorem Unsubscribe_found_eq (c : Camera) (h : Nat) :
    (Unsubscribe c h).found = (c.listeners.findIdx? fun q => q.qid == h).isSome := by
  unfold Unsubscribe
  cases hf : c.listeners.findIdx? fun q => q.qid == h with
  | none => simp
  | some i =>
    by_cases hl : c.listeners.length = 1
    · simp only [hl, if_pos]
      cases hs : StopPub c <;> simp
    · simp [hl]

theorem Unsubscribe_body {c : Camera} {h : Nat} {c' : Camera}
    (hu : (Unsubscribe c h).cam = some c') : c'.body.isSome = c.body.isSome := by
  unfold Unsubscribe at hu
  cases hf : c.listeners.findIdx? fun q => q.qid == h with
  | none =>
    simp only [hf] at hu
    rw [← Option.some_injective _ hu]
  | some i =>
    simp only [hf] at hu
    by_cases hl : c.listeners.length = 1
    · simp only [hl, if_pos] at hu
      cases hs : StopPub c with
      | none => simp [hs] at hu
      | some cc =>
        simp only [hs] at hu
        obtain ⟨rfl, hb⟩ := StopPub_some_elim hs
        simp only [← Option.some_injective _ hu]
        simp [hb]
    · simp only [hl, if_neg, not_false_iff] at hu
      rw [← Option.some_injective _ hu]

theorem Unsubscribe_reconnect_false {c : Camera} {h : Nat} {c' : Camera}
    (hu : (Unsubscribe c h).cam = some c') (hr : c.reconnect = false) : c'.reconnect = false := by
  unfold Unsubscribe at hu
  cases hf : c.listeners.findIdx? fun q => q.qid == h with
  | none =>
    simp only [hf] at hu
    rw [← Option.some_injective _ hu]
    exact hr
  | some i =>
    simp only [hf] at hu
    by_cases hl : c.listeners.length = 1
    · simp only [hl, if_pos] at hu
      cases hs : StopPub c with
      | none => simp [hs] at hu
      | some cc =>
        simp only [hs] at hu
        obtain ⟨rfl, _⟩ := StopPub_some_elim hs
        rw [← Option.some_injective _ hu]
    · simp only [hl, if_neg, not_false_iff] at hu
      rw [← Option.some_injective _ hu]
      exact hr

theorem Step_body {c : Camera} {b : Bool} {c' : Camera} {b' : Bool}
    (s : Step c b c' b') (h : c.body.isSome = b) : c'.body.isSome = b' := by
  cases s with
  | subscribe r => rw [Subscribe_body, h]
  | unsubscribe hq hx hu => rw [Unsubscribe_body hu]; exact h
  | stopPub hx hs =>
    obtain ⟨rfl, hb⟩ := StopPub_some_elim hs
    simp only [Option.isSome_some]
    rw [← h, hb]
  | readRun parts ending i t hx hr => rw [readLoop_body parts c ending i t c' hr]; exact h
  | restart r => rw [start_body, h]
  | keepaliveRun now hx hk => rw [keepalive_body hk]; exact h

theorem Step_reconnect_false {c : Camera} {b : Bool} {c' : Camera} {b' : Bool}
    (s : Step c b c' b') (h : c.reconnect = false) : c'.reconnect = false := by
  cases s with
  | subscribe r => rw [Subscribe_reconnect]; exact h
  | unsubscribe hq hx hu => exact Unsubscribe_reconnect_false hu h
  | stopPub hx hs => rw [(StopPub_some_elim hs).1]
  | readRun parts ending i t hx hr => rw [readLoop_reconnect parts c ending i t c' hr]; exact h
  | restart r => rw [start_reconnect]; exact h
  | keepaliveRun now hx hk => rw [keepalive_reconnect hk]; exact h

theorem Reach_body_eq {c : Camera} {b : Bool} (h : Reach c b) : c.body.isSome = b := by
  induction h with
  | init name url username password log reconnect => rfl
  | step _ s ih => exact Step_body s ih

end Cam

namespace Cam

/-- A freshly constructed camera used for concrete instantiations. -/
def camFresh : Camera := initCamera "front" "http://camera.local/stream" "" "" false false

/-- A concrete frame used for concrete instantiations. -/
def fDemo : Frame := { cameraName := "front", number := 0, timestamp := 0, bytes := [1] }

/-- C5 counterexample: with a closed queue registered ahead of an open one,
`emit` delivers the frame to neither — the recovered panic aborts the loop,
so the open registered queue after the closed one receives nothing,
refuting delivery to every currently registered queue. -/
theorem emit_after_closed_queue_skipped_cex :
    ¬ (∀ q ∈ emit [{ qid := 0, closed := true, buffer := [] },
                   { qid := 1, closed := false, buffer := [] }] fDemo,
        q.closed = true ∨ fDemo ∈ q.buffer) := by
  decide

/-- C5 (amended): `emit` delivers the frame to exactly the registered queues
preceding the first closed queue, in registration order; the send to the
closed queue is swallowed (the call returns normally, modelled by `emit`
being a total function), and the queues from the first closed one onward
are left untouched. -/
theorem emit_delivers_before_first_closed (ls : List Queue) (f : Frame) :
    emit ls f
      = (ls.takeWhile fun q => !q.closed).map (deliver f)
          ++ ls.dropWhile fun q => !q.closed := by
  induction ls with
  | nil => rfl
  | cons q qs ih =>
    by_cases h : q.closed
    · simp [emit, h, List.takeWhile_cons, List.dropWhile_cons]
    · simp [emit, h, List.takeWhile_cons, List.dropWhile_cons, ih]

/-- C6: `start()` returns an error and spawns no reader when the connection
fails, when the content type does not parse, when the boundary parameter is
absent, or when the media type is not a multipart kind; otherwise it spawns
exactly one reader bound to the declared boundary and returns nil. -/
theorem start_validation (c : Camera) (r : ConnectResult) :
    (∀ m, r = .failure m →
        (start c r).err = some (.transport m) ∧ (start c r).readers = [])
    ∧ (∀ m, r = .success (.parseError m) →
        (start c r).err = some (.parseFailure m) ∧ (start c r).readers = [])
    ∧ (∀ mt bo, r = .success (.parsed mt bo) →
        (bo = none ∨ strStartsWith mt "multipart/" = false) →
        (start c r).err = some (.nonMultipart c.url) ∧ (start c r).readers = [])
    ∧ (∀ mt bq, r = .success (.parsed mt (some bq)) →
        strStartsWith mt "multipart/" = true →
        (start c r).err = none ∧ (start c r).readers = [bq]) := by
  refine ⟨?_, ?_, ?_, ?_⟩
  · rintro m rfl
    exact ⟨rfl, rfl⟩
  · rintro m rfl
    exact ⟨rfl, rfl⟩
  · rintro mt bo rfl hb
    cases hb with
    | inl hn => subst hn; exact ⟨rfl, rfl⟩
    | inr hp =>
      cases bo with
      | none => exact ⟨rfl, rfl⟩
      | some bq => simp [start, hp]
  · rintro mt bq rfl hp
    simp [start, hp]

/-- Witness for C6 at concrete inputs: a well-formed multipart content type
spawns one reader with its boundary, and a failed connection returns the
transport error without a reader. -/
theorem start_validation_witness :
    (start camFresh (.success (.parsed "multipart/x-mixed-replace" (some "gocamera")))).err = none
    ∧ (start camFresh (.success (.parsed "multipart/x-mixed-replace" (some "gocamera")))).readers
        = ["gocamera"]
    ∧ (start camFresh (.failure "connection refused")).err
        = some (.transport "connection refused") := by
  refine ⟨?_, ?_, ?_⟩
  · exact ((start_validation camFresh _).2.2.2 _ "gocamera" rfl (by decide)).1
  · exact ((start_validation camFresh _).2.2.2 _ "gocamera" rfl (by decide)).2
  · exact ((start_validation camFresh _).1 "connection refused" rfl).1

/-- C7: one keepalive pass is a no-op when the single-flight latch is held
or reconnect is disabled; otherwise it sleeps the 10-unit watchdog
interval and then forces `stop()` exactly when the most recently received
frame exists and is older than that interval, rescheduling itself
otherwise. -/
theorem keepalive_watchdog (c : Camera) (now : Nat) :
    ((c.locked = true ∨ c.reconnect = false) →
        keepalive c now
          = { cam := some c, slept := false, stopped := false, rescheduled := false })
    ∧ (c.locked = false → c.reconnect = true →
        (keepalive c now).slept = true
        ∧ ((keepalive c now).stopped = true
            ↔ ∃ f, c.lastFrame = some f ∧ 10 < now + 10 - f.timestamp)
        ∧ ((keepalive c now).rescheduled = !(keepalive c now).stopped)
        ∧ ((keepalive c now).stopped = true →
            (keepalive c now).cam = stopInternal { c with locked := false })) := by
  constructor
  · intro hg
    have hg2 : (c.locked || !c.reconnect) = true := by
      cases hg with
      | inl hx => simp [hx]
      | inr hx => simp [hx]
    simp [keepalive, hg2]
  · intro hl hr
    have hg2 : (c.locked || !c.reconnect) = false := by simp [hl, hr]
    cases hf : c.lastFrame with
    | none => simp [keepalive, hg2, hf]
    | some f =>
      by_cases ht : 10 < now + 10 - f.timestamp
      · simp [keepalive, hg2, hf, ht]
      · simp [keepalive, hg2, hf, ht]

/-- A camera with reconnect enabled, an open body and a stale last frame,
used to instantiate the watchdog theorem. -/
def camW : Camera :=
  { camFresh with reconnect := true, body := some { closed := false },
                  lastFrame := some { cameraName := "front", number := 0,
                                      timestamp := 0, bytes := [] } }

/-- Witness for C7: at a concrete stale-frame camera the watchdog forces
stop, and at a reconnect-disabled camera the pass is a no-op. -/
theorem keepalive_watchdog_witness :
    (keepalive camW 5).stopped = true
    ∧ keepalive camFresh 3
        = { cam := some camFresh, slept := false, stopped := false, rescheduled := false } := by
  constructor
  · exact ((keepalive_watchdog camW 5).2 rfl rfl).2.1.mpr
      ⟨{ cameraName := "front", number := 0, timestamp := 0, bytes := [] }, rfl, by decide⟩
  · exact (keepalive_watchdog camFresh 3).1 (Or.inr rfl)

end Cam

namespace Cam

/-- C2 (amended): when the frame-reader loop terminates — for any
termination cause, with reconnect enabled or disabled — no subscriber
queue is closed: every queue that was open is still open afterwards, and
each queue has received exactly the frames read before termination and
nothing afterwards; moreover a reconnect attempt (`start()`) on the
post-termination state leaves the listener registry untouched.  Queues are
closed only by an explicit `Unsubscribe`. -/
theorem read_termination_closes_no_queue (c : Camera) (parts : List (List Nat))
    (ending : SourceEnd) (i t : Nat) (c' : Camera)
    (hopen : ∀ q ∈ c.listeners, q.closed = false)
    (hrun : readLoop c parts ending i t = some c') :
    c'.listeners
        = c.listeners.map (fun q => { q with buffer := q.buffer ++ partsFrames c.name parts i t })
    ∧ (∀ q ∈ c'.listeners, q.closed = false)
    ∧ (∀ r : ConnectResult, (start c' r).cam.listeners = c'.listeners) := by
  have hb := readLoop_open_buffers parts c ending i t c' hopen hrun
  refine ⟨hb, ?_, fun r => start_listeners c' r⟩
  rw [hb]
  intro q hq
  rw [List.mem_map] at hq
  obtain ⟨a, ha, rfl⟩ := hq
  exact hopen a ha

/-- A reconnect-disabled camera with one open subscriber queue and an open
connection, used for concrete read-loop runs. -/
def camR : Camera :=
  { camFresh with body := some { closed := false },
                  listeners := [{ qid := 0, closed := false, buffer := [] }] }

/-- The state camR reaches after reading one part of payload `[7]` and
hitting end-of-stream. -/
def camR2 : Camera :=
  { camFresh with body := some { closed := true },
                  lastFrame := some { cameraName := "front", number := 0,
                                      timestamp := 0, bytes := [7] },
                  listeners := [{ qid := 0, closed := false,
                                  buffer := [{ cameraName := "front", number := 0,
                                               timestamp := 0, bytes := [7] }] }] }

/-- C2 counterexample: with reconnect disabled, after the read loop
terminates at end-of-stream the registered subscriber queue is still open
— the loop closed zero queues, not every queue exactly once. -/
theorem read_failure_closes_nothing_cex :
    camR.reconnect = false
    ∧ readLoop camR [[7]] SourceEnd.eofLike 0 0 = some camR2
    ∧ camR2.listeners.all (fun q => q.closed) = false := by
  refine ⟨rfl, by decide, by decide⟩

/-- Witness for C2 at a concrete input: the run exists and leaves the
queue open. -/
theorem read_termination_closes_no_queue_witness :
    readLoop camR [[7]] SourceEnd.eofLike 0 0 = some camR2
    ∧ (∀ q ∈ camR2.listeners, q.closed = false) := by
  constructor
  · decide
  · exact (read_termination_closes_no_queue camR [[7]] SourceEnd.eofLike 0 0 camR2
      (by decide) (by decide)).2.1

theorem partsFrames_replicate (name : String) (P : List Nat) :
    ∀ (n i t : Nat),
      partsFrames name (List.replicate n P) i t
        = (List.range n).map (fun k =>
            { cameraName := name, number := (i + k) % 2 ^ 64,
              timestamp := t + k, bytes := P }) := by
  intro n
  induction n with
  | zero => intro i t; rfl
  | succ n ih =>
    intro i t
    rw [List.replicate_succ, List.range_succ_eq_map]
    simp only [partsFrames, List.map_cons, List.map_map]
    rw [ih (i + 1) (t + 1)]
    congr 1
    apply List.map_congr_left
    intro k hk
    simp only [Function.comp_apply, Frame.mk.injEq]
    exact ⟨trivial, by omega, by omega, trivial⟩

/-- C4: for an upstream source yielding N parts of payload P and then
terminating, every registered (open, initially empty) subscriber queue
receives exactly N frames carrying payload P and the camera name, with
sequence numbers 0 through N-1 in delivery order.  The bound on N reflects
the 64-bit frame counter (`Number` is `uint64(i)`). -/
theorem fanout_delivers_every_frame (c : Camera) (N : Nat) (P : List Nat) (c' : Camera)
    (hN : N ≤ 2 ^ 64)
    (hq : ∀ q ∈ c.listeners, q.closed = false ∧ q.buffer = [])
    (hrun : readLoop c (List.replicate N P) SourceEnd.eofLike 0 0 = some c') :
    c'.listeners.length = c.listeners.length
    ∧ ∀ q ∈ c'.listeners,
        q.buffer = (List.range N).map (fun k =>
          { cameraName := c.name, number := k, timestamp := k, bytes := P }) := by
  have hopen : ∀ q ∈ c.listeners, q.closed = false := fun q hm => (hq q hm).1
  have hb := readLoop_open_buffers (List.replicate N P) c SourceEnd.eofLike 0 0 c' hopen hrun
  constructor
  · rw [hb, List.length_map]
  · rw [hb]
    intro q hm
    rw [List.mem_map] at hm
    obtain ⟨a, ha, rfl⟩ := hm
    show a.buffer ++ partsFrames c.name (List.replicate N P) 0 0 = _
    rw [(hq a ha).2, List.nil_append, partsFrames_replicate]
    apply List.map_congr_left
    intro k hk
    rw [List.mem_range] at hk
    have e1 : (0 + k) % 2 ^ 64 = k := by
      rw [Nat.zero_add]
      exact Nat.mod_eq_of_lt (lt_of_lt_of_le hk hN)
    rw [e1, Nat.zero_add]

/-- A camera with two concurrently subscribed open queues and an open
connection. -/
def camK : Camera :=
  { camFresh with body := some { closed := false },
                  listeners := [{ qid := 0, closed := false, buffer := [] },
                                { qid := 1, closed := false, buffer := [] }] }

/-- The three frames camK subscribers receive from three parts of
payload `[9]`. -/
def framesK : List Frame :=
  [{ cameraName := "front", number := 0, timestamp := 0, bytes := [9] },
   { cameraName := "front", number := 1, timestamp := 1, bytes := [9] },
   { cameraName := "front", number := 2, timestamp := 2, bytes := [9] }]

/-- The state camK reaches after reading three parts of payload `[9]` and
hitting end-of-stream. -/
def camK2 : Camera :=
  { camFresh with body := some { closed := true },
                  lastFrame := some { cameraName := "front", number := 2,
                                      timestamp := 2, bytes := [9] },
                  listeners := [{ qid := 0, closed := false, buffer := framesK },
                                { qid := 1, closed := false, buffer := framesK }] }

/-- Witness for C4: two subscribers, three parts of payload `[9]`; both
queues receive frames 0, 1, 2 with that payload and the camera name. -/
theorem fanout_delivers_every_frame_witness :
    readLoop camK (List.replicate 3 [9]) SourceEnd.eofLike 0 0 = some camK2
    ∧ camK2.listeners.length = camK.listeners.length
    ∧ (∀ q ∈ camK2.listeners,
        q.buffer = (List.range 3).map (fun k =>
          { cameraName := camK.name, number := k, timestamp := k, bytes := [9] })) := by
  have h := fanout_delivers_every_frame camK 3 [9] camK2 (by norm_num)
    (by decide) (by decide)
  exact ⟨by decide, h.1, h.2⟩

end Cam


namespace Cam

/-- The state `Stop()` produces from a connected camera: reconnect
disabled, stream handle closed, registry emptied, every other field
untouched. -/
def teardown (c : Camera) : Camera :=
  { c with reconnect := false, body := some { closed := true }, listeners := [] }

/-- C3 (amended): in every reachable state, the stream handle is non-nil
iff some `start()` invocation has successfully connected since
construction.  The handle is set on the first successful connect and never
cleared, so registry emptiness does not imply a nil handle, and a
registration surviving a failed connect does not imply a handle. -/
theorem reachable_body_iff_ever_connected (c : Camera) (b : Bool) (h : Reach c b) :
    c.body ≠ none ↔ b = true := by
  rw [← Reach_body_eq h]
  exact Option.isSome_iff_ne_none.symm

/-- Witness for C3 at a concrete reachable state: the fresh camera has a
nil handle and has never connected. -/
theorem reachable_body_iff_ever_connected_witness :
    camFresh.body ≠ none ↔ false = true :=
  reachable_body_iff_ever_connected camFresh false
    (Reach.init "front" "http://camera.local/stream" "" "" false false)

/-- The reachable state after one Subscribe whose triggered connect fails:
one registered queue, nil stream handle. -/
def cBad : Camera := (Subscribe camFresh (.failure "connection refused")).cam

/-- C3 counterexample: a reachable state with a non-empty subscriber
registry and a nil stream handle, refuting the handle-iff-registry
invariant. -/
theorem registry_nonempty_with_nil_handle_cex :
    Reach cBad false ∧ cBad.listeners ≠ [] ∧ cBad.body = none := by
  refine ⟨?_, by decide, rfl⟩
  exact Reach.step (Reach.init "front" "http://camera.local/stream" "" "" false false)
    (Step.subscribe camFresh false (.failure "connection refused"))

/-- C1 (code bug): the error value Subscribe returns to its caller is the
initial nil for every camera and every connect outcome, because the
`return l, err` executes without synchronising with the spawned goroutine
that assigns `err`; at the concrete failing input the goroutine produces a
transport error, the queue is registered anyway, and the caller still
receives nil. -/
theorem subscribe_start_error_not_returned :
    (∀ (c : Camera) (r : ConnectResult), (Subscribe c r).returned = none)
    ∧ (Subscribe camFresh (.failure "connection refused")).returned = none
    ∧ (Subscribe camFresh (.failure "connection refused")).startErr
        = some (.transport "connection refused")
    ∧ (Subscribe camFresh (.failure "connection refused")).cam.listeners.length = 1 :=
  ⟨fun _ _ => rfl, rfl, rfl, rfl⟩

/-- C8 (amended): Unsubscribe returns true iff the handle is currently
registered; an unregistered handle leaves the camera unchanged; removal of
a registered handle shrinks the registry by exactly one provided the
teardown does not panic (more than one listener, or a non-nil stream
handle); removing the last handle with a nil handle returns true but the
spawned teardown panics, so no decreased state exists. -/
theorem unsubscribe_registered_handles (c : Camera) (h : Nat) :
    ((Unsubscribe c h).found = true ↔ h ∈ c.listeners.map Queue.qid)
    ∧ (h ∉ c.listeners.map Queue.qid →
        (Unsubscribe c h).found = false ∧ (Unsubscribe c h).cam = some c)
    ∧ (h ∈ c.listeners.map Queue.qid →
        (c.listeners.length ≠ 1 ∨ c.body.isSome = true) →
        ∃ c', (Unsubscribe c h).cam = some c'
          ∧ c'.listeners.length + 1 = c.listeners.length)
    ∧ (h ∈ c.listeners.map Queue.qid → c.listeners.length = 1 → c.body = none →
        (Unsubscribe c h).found = true ∧ (Unsubscribe c h).cam = none) := by
  have hfound := Unsubscribe_found_eq c h
  have hmem : ((c.listeners.findIdx? fun q => q.qid == h).isSome = true)
      ↔ h ∈ c.listeners.map Queue.qid := by
    rw [List.findIdx?_isSome, List.any_eq_true]
    constructor
    · rintro ⟨q, hq, he⟩
      rw [List.mem_map]
      exact ⟨q, hq, by simpa using he⟩
    · intro hm
      rw [List.mem_map] at hm
      obtain ⟨q, hq, he⟩ := hm
      exact ⟨q, hq, by simp [he]⟩
  refine ⟨by rw [hfound]; exact hmem, ?_, ?_, ?_⟩
  · intro hnm
    have hn : (c.listeners.findIdx? fun q => q.qid == h) = none := by
      cases hf : c.listeners.findIdx? fun q => q.qid == h with
      | none => rfl
      | some i => exact absurd (hmem.mp (by simp [hf])) hnm
    have hu : Unsubscribe c h = { found := false, cam := some c, closedQid := none } := by
      unfold Unsubscribe
      rw [hn]
    rw [hu]
    exact ⟨rfl, rfl⟩
  · intro hm hcond
    have hs : (c.listeners.findIdx? fun q => q.qid == h).isSome = true := hmem.mpr hm
    cases hf : c.listeners.findIdx? fun q => q.qid == h with
    | none => rw [hf] at hs; simp at hs
    | some i =>
      by_cases hl : c.listeners.length = 1
      · have hbs : c.body.isSome = true := by
          cases hcond with
          | inl hx => exact absurd hl hx
          | inr hx => exact hx
        obtain ⟨bdy, hbdy⟩ := Option.isSome_iff_exists.mp hbs
        refine ⟨teardown c, ?_, ?_⟩
        · unfold Unsubscribe
          simp only [hf]
          rw [if_pos hl, StopPub_some c bdy hbdy]
          rfl
        · show ([] : List Queue).length + 1 = c.listeners.length
          rw [hl]
          rfl
      · have hlt : i < c.listeners.length := by
          obtain ⟨hlt, _, _⟩ := List.findIdx?_eq_some_iff_getElem.mp hf
          exact hlt
        refine ⟨{ c with listeners := c.listeners.eraseIdx i }, ?_, ?_⟩
        · unfold Unsubscribe
          simp only [hf]
          rw [if_neg hl]
        · show (c.listeners.eraseIdx i).length + 1 = c.listeners.length
          exact List.length_eraseIdx_add_one hlt
  · intro hm hl hb
    have hs : (c.listeners.findIdx? fun q => q.qid == h).isSome = true := hmem.mpr hm
    cases hf : c.listeners.findIdx? fun q => q.qid == h with
    | none => rw [hf] at hs; simp at hs
    | some i =>
      constructor
      · rw [hfound, hf]
        rfl
      · unfold Unsubscribe
        simp only [hf]
        rw [if_pos hl, StopPub_none c hb]

/-- A connected camera with two registered open queues. -/
def camTwo : Camera :=
  { camFresh with body := some { closed := false },
                  listeners := [{ qid := 0, closed := false, buffer := [] },
                                { qid := 1, closed := false, buffer := [] }] }

/-- Witness for C8 at concrete inputs: a registered handle is found, an
unknown handle leaves the camera unchanged, and removing one of two
handles shrinks the registry by one. -/
theorem unsubscribe_registered_handles_witness :
    (Unsubscribe camTwo 0).found = true
    ∧ (Unsubscribe camTwo 99).cam = some camTwo
    ∧ (∃ c', (Unsubscribe camTwo 1).cam = some c'
        ∧ c'.listeners.length + 1 = camTwo.listeners.length) := by
  refine ⟨?_, ?_, ?_⟩
  · exact (unsubscribe_registered_handles camTwo 0).1.mpr (by decide)
  · exact ((unsubscribe_registered_handles camTwo 99).2.1 (by decide)).2
  · exact (unsubscribe_registered_handles camTwo 1).2.2.1 (by decide) (Or.inl (by decide))

/-- C8 counterexample: in the reachable state with one registered queue and
a nil stream handle, Unsubscribe returns true but its spawned teardown
panics on the nil handle, so the registry size never decreases. -/
theorem unsubscribe_last_nil_body_panics_cex :
    Reach cBad false ∧ (Unsubscribe cBad 0).found = true
    ∧ (Unsubscribe cBad 0).cam = none := by
  refine ⟨?_, by decide, by decide⟩
  exact Reach.step (Reach.init "front" "http://camera.local/stream" "" "" false false)
    (Step.subscribe camFresh false (.failure "connection refused"))

/-- C9: with a nil stream handle (no connect ever succeeded), the internal
stop, the public Stop, and the unsubscribe of the last registered handle
all dereference the nil handle — modelled as the panic result `none` —
rather than being a safe no-op. -/
theorem stop_nil_handle_panics (c : Camera) (hb : c.body = none) :
    stopInternal c = none
    ∧ StopPub c = none
    ∧ (∀ h : Nat, c.listeners.length = 1 → (Unsubscribe c h).found = true →
        (Unsubscribe c h).cam = none) := by
  refine ⟨stopInternal_none c hb, StopPub_none c hb, ?_⟩
  intro h hl hfd
  cases hf : c.listeners.findIdx? fun q => q.qid == h with
  | none =>
    rw [Unsubscribe_found_eq c h, hf] at hfd
    simp at hfd
  | some i =>
    unfold Unsubscribe
    simp only [hf]
    rw [if_pos hl, StopPub_none c hb]

/-- Witness for C9 at the concrete never-connected state. -/
theorem stop_nil_handle_panics_witness :
    StopPub cBad = none ∧ (Unsubscribe cBad 0).cam = none := by
  refine ⟨(stop_nil_handle_panics cBad rfl).2.1, ?_⟩
  exact (stop_nil_handle_panics cBad rfl).2.2 0 rfl (by decide)

/-- C10: unsubscribing the last remaining handle of a connected camera with
reconnect enabled tears down via Stop(): reconnect becomes false, the
registry is emptied and the stream handle is closed, while every other
field is untouched (the result is exactly the source state with only those
three fields updated); no transition of the system ever turns reconnect
back on, and in particular a subsequent Subscribe leaves it false. -/
theorem last_unsubscribe_disables_reconnect (c : Camera) (q : Queue) (bh : BodyHandle)
    (hl : c.listeners = [q]) (hb : c.body = some bh) (_hr : c.reconnect = true) :
    (Unsubscribe c q.qid).cam = some (teardown c)
    ∧ (∀ r, (Subscribe (teardown c) r).cam.reconnect = false)
    ∧ (∀ (c2 : Camera) (b2 : Bool) (c3 : Camera) (b3 : Bool),
        Step c2 b2 c3 b3 → c2.reconnect = false → c3.reconnect = false) := by
  refine ⟨?_, ?_, fun c2 b2 c3 b3 s hs => Step_reconnect_false s hs⟩
  · have hf : (c.listeners.findIdx? fun q2 => q2.qid == q.qid) = some 0 := by
      rw [hl]
      simp
    have hlen : c.listeners.length = 1 := by rw [hl]; rfl
    unfold Unsubscribe
    simp only [hf]
    rw [if_pos hlen, StopPub_some c bh hb]
    rfl
  · intro r
    rw [Subscribe_reconnect]
    rfl

/-- A connected reconnect-enabled camera with a single registered queue. -/
def camOne : Camera :=
  { camFresh with reconnect := true, body := some { closed := false },
                  listeners := [{ qid := 5, closed := false, buffer := [] }] }

/-- Witness for C10 at the concrete single-subscriber camera. -/
theorem last_unsubscribe_disables_reconnect_witness :
    (Unsubscribe camOne 5).cam = some (teardown camOne) :=
  (last_unsubscribe_disables_reconnect camOne { qid := 5, closed := false, buffer := [] }
    { closed := false } rfl rfl rfl).1

end Cam
